import Mathlib

/-!
Shallow embedding of the customer-churn dashboard pipeline
(`app_dashboard.py`, `app_template.py`): raw-value coercion,
median fill, binning, grouped means, correlation, flag mapping,
and the reactive figure-update callback.
-/

namespace ChurnDash

/-- A raw cell of an object-dtype column: a value that numeric coercion
succeeds on (`num`), an originally blank/missing cell (`nan`), or a
non-blank string that numeric coercion fails on (`bad`). -/
inductive RawVal where
  | num (q : ℚ)
  | nan
  | bad (s : String)
deriving DecidableEq

/-- Source: `pd.to_numeric(·, errors="coerce")` on a single cell: coercion failures
and blanks become missing (`none`). -/
def coerceVal : RawVal → Option ℚ
  | .num q => some q
  | .nan => none
  | .bad _ => none

/-- Whether `pd.to_numeric` succeeds on the cell (blanks pass through as NaN). -/
def isCoercibleB : RawVal → Bool
  | .bad _ => false
  | _ => true

/-- Source: `pd.to_numeric(col, errors="coerce")`: per-value coercion, failures become missing. -/
def toNumericCoerce (xs : List RawVal) : List (Option ℚ) :=
  xs.map coerceVal

/-- A pandas column: numeric dtype (with possible NaN) or object dtype. -/
inductive Col where
  | numC (vals : List (Option ℚ))
  | objC (vals : List RawVal)
deriving DecidableEq

/-- Source: `pd.to_numeric(col, errors="ignore")` as used in `preprocess_data`
(app_template.py, lines 34-39): if every value coerces the whole column
becomes numeric, otherwise the column is returned unchanged. -/
def toNumericIgnore (xs : List RawVal) : Col :=
  if xs.all isCoercibleB then .numC (toNumericCoerce xs) else .objC xs

/-- The valid (non-missing) entries of a numeric column, in order. -/
def valids (xs : List (Option ℚ)) : List ℚ :=
  xs.filterMap id

/-- Source: `Series.median()` (skipna): sort the valid values ascending; the middle
value for odd length, the mean of the two middle values for even length;
`NaN` (here `none`) on an empty list. -/
def median (xs : List ℚ) : Option ℚ :=
  if xs.isEmpty then none
  else
    let s := List.insertionSort (· ≤ ·) xs
    let n := xs.length
    if n % 2 = 1 then some (s.getD (n / 2) 0)
    else some ((s.getD (n / 2 - 1) 0 + s.getD (n / 2) 0) / 2)

/-- Source: `Series.fillna(v)`: when `v` is itself NaN (`none`) the call leaves the
column unchanged; otherwise every missing entry becomes `v`. -/
def fillna (xs : List (Option ℚ)) : Option ℚ → List (Option ℚ)
  | none => xs
  | some q => xs.map (fun o => some (o.getD q))

/-- The Normalizer for one numeric column, per
`df["TotalCharges"] = pd.to_numeric(df["TotalCharges"], errors="coerce")`
followed by `df["TotalCharges"].fillna(df["TotalCharges"].median())`
(app_dashboard.py, lines 18-19; same fillna-median shape in
app_template.py, lines 41-44). -/
def normalizeNumeric (raw : List RawVal) : List (Option ℚ) :=
  let c := toNumericCoerce raw
  fillna c (median (valids c))

/-- An upper/lower bin edge: a finite rational or `np.inf`. -/
inductive Edge where
  | fin (q : ℚ)
  | inf
deriving DecidableEq

/-- Tests that `x` is strictly above the lower edge. -/
def Edge.ltB (e : Edge) (x : ℚ) : Bool :=
  match e with
  | .fin q => q < x
  | .inf => false

/-- Tests that `x` is at or below the upper edge. -/
def Edge.geB (e : Edge) (x : ℚ) : Bool :=
  match e with
  | .fin q => x ≤ q
  | .inf => true

/-- Interval scan for `pdCut`: given the current lower edge, the remaining
upper edges and labels, return the label of the first interval `(lo, hi]`
containing `x`, if any. -/
def pdCutGo (x : ℚ) : Edge → List Edge → List String → Option String
  | lo, hi :: es, lab :: ls =>
      if lo.ltB x && hi.geB x then some lab else pdCutGo x hi es ls
  | _, _, _ => none

/-- Source: `pd.cut(x, bins, labels, right=True)` on one value: right-closed
intervals `(b_i, b_(i+1)]`; a value outside every interval (in particular
any value at or below the first edge) gets no label (NaN). -/
def pdCut (x : ℚ) : List Edge → List String → Option String
  | e :: es, ls => pdCutGo x e es ls
  | [], _ => none

/-- Source: `bins_tenure = [0, 12, 24, 48, 72, np.inf]` (app_dashboard.py, line 24). -/
def binsTenure : List Edge :=
  [.fin 0, .fin 12, .fin 24, .fin 48, .fin 72, .inf]

/-- Source: `labels_tenure` (app_dashboard.py, line 25). -/
def labelsTenure : List String :=
  ["0–12", "13–24", "25–48", "49–72", "73+"]

/-- Source: `bins_charges = [0, 25, 50, 75, 100, np.inf]` (app_dashboard.py, line 28). -/
def binsCharges : List Edge :=
  [.fin 0, .fin 25, .fin 50, .fin 75, .fin 100, .inf]

/-- Source: `labels_charges` (app_dashboard.py, line 29). -/
def labelsCharges : List String :=
  ["0–25", "26–50", "51–75", "76–100", "100+"]

/-- Source: `df["Churn"].map({"Yes": 1, "No": 0})` on one cell (app_dashboard.py,
line 21): dictionary lookup; a value outside the dictionary becomes
missing (`none`), pandas raises nothing. -/
def churnFlag (v : String) : Option ℚ :=
  if v = "Yes" then some 1 else if v = "No" then some 0 else none

/-- Descending comparison on group-mean values, NaN (`none`) sorting last,
as `sort_values(ascending=False)` orders them. -/
def valGeB : Option ℚ → Option ℚ → Bool
  | some a, some b => b ≤ a
  | some _, none => true
  | none, none => true
  | none, some _ => false

/-- Row order used by `sort_values("ChurnFlag", ascending=False)`:
descending by the value component. -/
def rowGe (p q : String × Option ℚ) : Prop :=
  valGeB p.2 q.2 = true

instance : DecidableRel rowGe := fun p q => by
  unfold rowGe
  infer_instance

instance : IsTotal (String × Option ℚ) rowGe :=
  ⟨by
    intro a b
    unfold rowGe
    rcases a with ⟨ka, va⟩
    rcases b with ⟨kb, vb⟩
    rcases va with _ | qa <;> rcases vb with _ | qb <;> simp [valGeB]
    exact le_total qb qa⟩

instance : IsTrans (String × Option ℚ) rowGe :=
  ⟨by
    intro a b c hab hbc
    unfold rowGe at hab hbc ⊢
    rcases a with ⟨ka, va⟩
    rcases b with ⟨kb, vb⟩
    rcases c with ⟨kc, vc⟩
    rcases va with _ | qa <;> rcases vb with _ | qb <;> rcases vc with _ | qc <;>
      simp_all [valGeB]
    linarith⟩

/-- The distinct group keys in the lexicographic order `groupby` (with its
default `sort=True`) emits them in. -/
def groupsOf (keys : List String) : List String :=
  List.insertionSort (· ≤ ·) keys.dedup

/-- Mean of the values whose row has group key `k`, skipping missing
values as `groupby(...).mean()` does; `none` when the group has no valid
value. -/
def groupMean (keys : List String) (vals : List (Option ℚ)) (k : String) : Option ℚ :=
  let g := valids ((keys.zip vals).filterMap (fun p => if p.1 = k then some p.2 else none))
  if g.isEmpty then none else some (g.sum / (g.length : ℚ))

/-- Source: `df.groupby(key)[val].mean().reset_index()`: one row per distinct key,
keys in lexicographic order. -/
def groupbyMeanRows (keys : List String) (vals : List (Option ℚ)) :
    List (String × Option ℚ) :=
  (groupsOf keys).map (fun k => (k, groupMean keys vals k))

/-- Source: `.sort_values(value_column, ascending=False)` on the grouped rows. -/
def sortValuesDesc (rows : List (String × Option ℚ)) : List (String × Option ℚ) :=
  List.insertionSort rowGe rows

/-- The grouped churn-rate aggregate of app_dashboard.py, lines 50-55 and
120-125: group, take the mean per group, sort descending by the mean. -/
def churnRateBy (keys : List String) (vals : List (Option ℚ)) :
    List (String × Option ℚ) :=
  sortValuesDesc (groupbyMeanRows keys vals)

/-- Mean of a list of rationals (`sum / len`). -/
def meanQ (xs : List ℚ) : ℚ :=
  xs.sum / (xs.length : ℚ)

/-- Sample covariance with pandas' `ddof=1` divisor `n - 1` (division by
zero in `ℚ` yields `0`, matching the guard usage below). -/
def covQ (xs ys : List ℚ) : ℚ :=
  (((xs.zip ys).map (fun p => (p.1 - meanQ xs) * (p.2 - meanQ ys))).sum) /
    ((xs.length : ℚ) - 1)

/-- The rows where both columns have a value, as `DataFrame.corr`'s
pairwise-complete masking selects them. -/
def pairComplete (xs ys : List (Option ℚ)) : List (ℚ × ℚ) :=
  (xs.zip ys).filterMap (fun p =>
    match p.1, p.2 with
    | some a, some b => some (a, b)
    | _, _ => none)

/-- Sample variance of the valid entries of a column (skipna). -/
def varObs (xs : List (Option ℚ)) : ℚ :=
  covQ (valids xs) (valids xs)

/-- One entry of `DataFrame.corr()`: Pearson correlation over the
pairwise-complete rows; when either masked column has zero variance the
float code divides by zero and the entry is NaN (`none`). -/
noncomputable def corrEntry (xs ys : List (Option ℚ)) : Option ℝ :=
  if covQ ((pairComplete xs ys).map Prod.fst) ((pairComplete xs ys).map Prod.fst) = 0
      ∨ covQ ((pairComplete xs ys).map Prod.snd) ((pairComplete xs ys).map Prod.snd) = 0
  then none
  else some ((covQ ((pairComplete xs ys).map Prod.fst) ((pairComplete xs ys).map Prod.snd) : ℝ) /
    (Real.sqrt ((covQ ((pairComplete xs ys).map Prod.fst) ((pairComplete xs ys).map Prod.fst) : ℚ) : ℝ) *
     Real.sqrt ((covQ ((pairComplete xs ys).map Prod.snd) ((pairComplete xs ys).map Prod.snd) : ℚ) : ℝ)))

/-- Source: `df[numeric_cols].corr()` (app_dashboard.py, lines 89-90;
app_template.py, line 80): the full pairwise matrix, no column dropped. -/
noncomputable def corrMatrix (cols : List (List (Option ℚ))) :
    List (List (Option ℝ)) :=
  cols.map (fun x => cols.map (fun y => corrEntry x y))

/-- Entry `(i, j)` of the correlation matrix, with `[]`/`none` defaults
outside the bounds. -/
noncomputable def corrAt (cols : List (List (Option ℚ))) (i j : ℕ) : Option ℝ :=
  ((corrMatrix cols).getD i []).getD j none

/-- Source: `Series.std()` of a column: square root of the sample variance; NaN
(`none`) when fewer than two valid entries. -/
noncomputable def stdObs (xs : List (Option ℚ)) : Option ℝ :=
  if (valids xs).length < 2 then none else some (Real.sqrt ((varObs xs : ℝ)))

/-- Mean of a column's valid entries (skipna); `none` when empty. -/
def meanObs (xs : List (Option ℚ)) : Option ℚ :=
  if (valids xs).isEmpty then none
  else some ((valids xs).sum / ((valids xs).length : ℚ))

end ChurnDash


namespace ChurnDash

/-- A declarative chart description: the chart kind and the data and
labels each plotly-express call receives. -/
inductive Fig where
  | empty
  | pie (names : List String) (title : String)
  | bar (rows : List (String × Option ℚ)) (x y title : String)
  | histogram (x : List ℚ) (colour : List String) (title : String)
  | box (x : List String) (y : List ℚ) (title : String)
  | corrHeat (z : List (List (Option ℝ))) (title : String)
  | pivotHeat (rows cols : List String) (z : List (List (Option ℚ))) (title : String)
  | scatter (x y : List (Option ℚ)) (colour : Option (List String)) (title : String)
  | summaryBar (features : List String) (means : List (Option ℚ))
      (stds : List (Option ℝ)) (title : String)

/-- Source: `pivot_table(index=r, columns=c, values=v, aggfunc="mean")` over the
full categorical label sets: cell mean of the valid values in each
(row-label, column-label) cell, NaN (`none`) for an empty cell. -/
def pivotMean (rlabels clabels : List String) (rkeys ckeys : List (Option String))
    (vals : List (Option ℚ)) : List (List (Option ℚ)) :=
  rlabels.map (fun r => clabels.map (fun c =>
    let g := valids (((rkeys.zip ckeys).zip vals).filterMap (fun t =>
      if t.1.1 = some r && t.1.2 = some c then some t.2 else none))
    if g.isEmpty then none else some (g.sum / (g.length : ℚ))))

/-- The columns of the churn dataset that app_dashboard.py reads, with the
`InternetService` column optional (`if "InternetService" in df.columns`). -/
structure TelcoFrame where
  churn : List String
  contract : List String
  tenure : List ℚ
  monthlyCharges : List ℚ
  totalCharges : List RawVal
  internetService : Option (List String)

/-- Source: `df["ChurnFlag"]` (app_dashboard.py, line 21). -/
def churnFlagCol (df : TelcoFrame) : List (Option ℚ) :=
  df.churn.map churnFlag

/-- Source: `fig_churn_pie` (app_dashboard.py, lines 42-47). -/
def figChurnPie (df : TelcoFrame) : Fig :=
  .pie df.churn "Overall Churn Distribution"

/-- Source: `fig_churn_contract` (app_dashboard.py, lines 50-64). -/
def figChurnContract (df : TelcoFrame) : Fig :=
  .bar (churnRateBy df.contract (churnFlagCol df)) "Contract" "ChurnFlag"
    "Churn Rate by Contract Type"

/-- Source: `fig_tenure_hist` (app_dashboard.py, lines 68-76). -/
def figTenureHist (df : TelcoFrame) : Fig :=
  .histogram df.tenure df.churn "Tenure Distribution (Churn vs Non-Churn)"

/-- Source: `fig_monthly_box` (app_dashboard.py, lines 80-86). -/
def figMonthlyBox (df : TelcoFrame) : Fig :=
  .box df.churn df.monthlyCharges "Monthly Charges by Churn Status"

/-- Source: `fig_corr_heatmap` over
`numeric_cols = ["tenure", "MonthlyCharges", "TotalCharges", "ChurnFlag"]`
(app_dashboard.py, lines 89-99). -/
noncomputable def figCorrHeatmap (df : TelcoFrame) : Fig :=
  .corrHeat (corrMatrix [df.tenure.map some, df.monthlyCharges.map some,
    normalizeNumeric df.totalCharges, churnFlagCol df])
    "Correlation Heatmap (Numeric Features)"

/-- Source: `fig_churn_heatmap` from `pivot_churn` (app_dashboard.py, lines 102-116). -/
def figChurnHeatmap (df : TelcoFrame) : Fig :=
  .pivotHeat labelsTenure labelsCharges
    (pivotMean labelsTenure labelsCharges
      (df.tenure.map (fun q => pdCut q binsTenure labelsTenure))
      (df.monthlyCharges.map (fun q => pdCut q binsCharges labelsCharges))
      (churnFlagCol df))
    "Churn Rate Heatmap: Tenure vs Monthly Charges"

/-- Source: `fig_churn_internet` (app_dashboard.py, lines 119-137): built from the
grouped churn rate when the column exists, `go.Figure()` otherwise. -/
def figChurnInternet (df : TelcoFrame) : Fig :=
  match df.internetService with
  | some col => .bar (churnRateBy col (churnFlagCol df)) "InternetService" "ChurnFlag"
      "Churn Rate by Internet Service Type"
  | none => .empty

/-- The named columns of the template app's dataframe after
`preprocess_data`: numeric columns and categorical (object) columns. -/
structure TFrame where
  numCols : List (String × List (Option ℚ))
  catCols : List (String × List String)

/-- Numeric column lookup by name. -/
def numOf (df : TFrame) (c : String) : List (Option ℚ) :=
  (df.numCols.lookup c).getD []

/-- Categorical column lookup by name. -/
def catOf (df : TFrame) (c : String) : List String :=
  (df.catCols.lookup c).getD []

/-- The dropdown state of app_template.py: the `x-col`, `y-col` and
`colour-col` values. -/
structure Selector where
  xcol : String
  ycol : String
  colour : String
deriving DecidableEq

/-- A selector field, one per dropdown. -/
inductive SField where
  | xf
  | yf
  | cf
deriving DecidableEq

/-- Apply a `{field, new_value}` change event to the selector state. -/
def Selector.set (s : Selector) : SField → String → Selector
  | .xf, v => { s with xcol := v }
  | .yf, v => { s with ycol := v }
  | .cf, v => { s with colour := v }

/-- The `Input`s declared by the `update_scatter` callback
(app_template.py, lines 218-223): all three dropdowns. -/
def scatterDeps : List SField :=
  [.xf, .yf, .cf]

/-- Source: `update_scatter` (app_template.py, lines 224-243): rebuild the scatter
figure from the current dropdown values. -/
def update_scatter (df : TFrame) (s : Selector) : Fig :=
  if s.colour = "None" then
    .scatter (numOf df s.xcol) (numOf df s.ycol) none (s.ycol ++ " vs " ++ s.xcol)
  else
    .scatter (numOf df s.xcol) (numOf df s.ycol) (some (catOf df s.colour))
      (s.ycol ++ " vs " ++ s.xcol ++ " coloured by " ++ s.colour)

/-- Source: `fig_summary` of `build_static_figures` (app_template.py, lines 67-77):
per-feature mean and std of the numeric columns. -/
noncomputable def figSummaryOf (df : TFrame) : Fig :=
  .summaryBar (df.numCols.map Prod.fst)
    (df.numCols.map (fun c => meanObs c.2))
    (df.numCols.map (fun c => stdObs c.2))
    "Numeric Features: Mean ± Std"

/-- Source: `fig_corr` of `build_static_figures` (app_template.py, lines 79-98). -/
noncomputable def figCorrOf (df : TFrame) : Fig :=
  .corrHeat (corrMatrix (df.numCols.map Prod.snd))
    "Correlation Heatmap (numeric features)"

/-- The app's figure state: the two static figures built once at startup
and the dynamic scatter figure, plus the current selector state. -/
structure AppState where
  figSummary : Fig
  figCorr : Fig
  scatterFig : Fig
  sel : Selector

/-- Dash's dispatch of one selector-change event `{field, new_value}`: the
selector state is updated, and a callback output is recomputed exactly
when the changed field is among the callback's declared `Input`s; figures
that are not outputs of a fired callback are left untouched. -/
def handleChange (df : TFrame) (st : AppState) (f : SField) (v : String) : AppState :=
  let s := st.sel.set f v
  { figSummary := st.figSummary
    figCorr := st.figCorr
    scatterFig := if f ∈ scatterDeps then update_scatter df s else st.scatterFig
    sel := s }

end ChurnDash

namespace ChurnDash

/-- The spec's normalizer scenario column `[1, 2, 3, NaN, 5]`. -/
def demoRaw : List RawVal :=
  [.num 1, .num 2, .num 3, .nan, .num 5]

/-- A concrete numeric column with no coercible value. -/
def demoAllBad : List RawVal :=
  [.bad " ", .nan]

/-- A concrete template dataframe used to instantiate the reactive claims. -/
def demoTFrame : TFrame :=
  { numCols := [("A", [some 1, some 2]), ("B", [some 3, some 4]), ("C", [some 5, some 6])]
    catCols := [("Churn", ["Yes", "No"])] }

/-- A concrete app state before a selector-change event: the selector is
`{x: A, y: B, colour: None}` as in the spec's scenario. -/
noncomputable def demoAppState : AppState :=
  { figSummary := figSummaryOf demoTFrame
    figCorr := figCorrOf demoTFrame
    scatterFig := update_scatter demoTFrame ⟨"A", "B", "None"⟩
    sel := ⟨"A", "B", "None"⟩ }

/-- A concrete dashboard frame that lacks the `InternetService` column. -/
def demoTelco : TelcoFrame :=
  { churn := ["Yes", "No"]
    contract := ["Month-to-month", "Two year"]
    tenure := [1, 30]
    monthlyCharges := [20, 80]
    totalCharges := [.num 20, .num 2400]
    internetService := none }

/-- Concrete columns for the correlation-matrix claim: an increasing
column and a constant (zero-variance) column. -/
def demoCols : List (List (Option ℚ)) :=
  [[some 1, some 2, some 3], [some 4, some 4, some 4]]

end ChurnDash

namespace ChurnDash

/-- Indexing distributes over `List.map` below the length. -/
theorem getD_map_lt {α β : Type} (f : α → β) (l : List α) (i : ℕ)
    (h : i < l.length) (d : β) (d' : α) :
    (l.map f).getD i d = f (l.getD i d') := by
  induction l generalizing i with
  | nil => simp at h
  | cons a t ih =>
      cases i with
      | zero => simp
      | succ n =>
          simp only [List.map_cons, List.getD_cons_succ]
          exact ih n (by simpa using Nat.lt_of_succ_lt_succ h)

/-- The median of a nonempty list of rationals is defined. -/
theorem median_of_ne_nil {xs : List ℚ} (h : xs ≠ []) : ∃ m, median xs = some m := by
  rw [median, if_neg (by simpa using h)]
  by_cases hp : xs.length % 2 = 1 <;> simp [hp]

/-- C1: for a numeric column with at least one coercible value, the
Normalizer's fill value is the median of the successfully coerced values
computed before any substitution; every originally valid entry is kept,
every coercion failure receives that one median, and the output has no
missing values; on the scenario column `[1, 2, 3, NaN, 5]` the fill value
is `5/2` and the output is `[1, 2, 3, 5/2, 5]`. -/
theorem normalizer_fills_with_prior_median (raw : List RawVal)
    (h : valids (toNumericCoerce raw) ≠ []) :
    ∃ m, median (valids (toNumericCoerce raw)) = some m ∧
      (normalizeNumeric raw).length = raw.length ∧
      (∀ o ∈ normalizeNumeric raw, o.isSome = true) ∧
      (∀ i, i < raw.length →
        (normalizeNumeric raw).getD i none
          = some (((toNumericCoerce raw).getD i none).getD m)) ∧
      normalizeNumeric demoRaw = [some 1, some 2, some 3, some (5/2), some 5] := by
  obtain ⟨m, hm⟩ := median_of_ne_nil h
  have hn : normalizeNumeric raw = (toNumericCoerce raw).map (fun o => some (o.getD m)) := by
    show fillna (toNumericCoerce raw) (median (valids (toNumericCoerce raw)))
      = (toNumericCoerce raw).map (fun o => some (o.getD m))
    rw [hm]
    rfl
  refine ⟨m, hm, ?_, ?_, ?_, ?_⟩
  · simp [hn, toNumericCoerce]
  · intro o ho
    rw [hn] at ho
    simp only [List.mem_map] at ho
    obtain ⟨x, -, rfl⟩ := ho
    rfl
  · intro i hi
    rw [hn]
    exact getD_map_lt _ _ i (by simpa [toNumericCoerce] using hi) _ none
  · norm_num [demoRaw, normalizeNumeric, toNumericCoerce, coerceVal, valids,
      median, fillna, List.filterMap]

/-- C1 witness: the scenario column has a coercible value, and the
normalizer theorem applies to it. -/
theorem normalizer_fills_with_prior_median_witness :
    valids (toNumericCoerce demoRaw) ≠ [] ∧
    (∃ m, median (valids (toNumericCoerce demoRaw)) = some m ∧
      (normalizeNumeric demoRaw).length = demoRaw.length ∧
      (∀ o ∈ normalizeNumeric demoRaw, o.isSome = true) ∧
      (∀ i, i < demoRaw.length →
        (normalizeNumeric demoRaw).getD i none
          = some (((toNumericCoerce demoRaw).getD i none).getD m)) ∧
      normalizeNumeric demoRaw = [some 1, some 2, some 3, some (5/2), some 5]) :=
  ⟨by decide, normalizer_fills_with_prior_median demoRaw (by decide)⟩

/-- C2 counterexample: on a numeric column with zero coercible values the
pipeline raises nothing; the median is NaN, `fillna` is a no-op, and the
resulting column still contains missing values — contrary to the claimed
`DataError` abort. -/
theorem allbad_column_counterexample :
    normalizeNumeric demoAllBad = [none, none] ∧
    (normalizeNumeric demoAllBad).any (fun o => o.isNone) = true := by
  constructor <;> rfl

/-- C2 amended: when a numeric column has zero coercible values the median
is undefined (`none`) and `fillna` leaves the column unchanged:
normalization completes without any error and every entry of the result is
still missing. -/
theorem allbad_column_normalization_noop (raw : List RawVal)
    (h : valids (toNumericCoerce raw) = []) :
    normalizeNumeric raw = toNumericCoerce raw ∧
    ∀ o ∈ normalizeNumeric raw, o = none := by
  have hm : median (valids (toNumericCoerce raw)) = none := by
    rw [h, median]
    rfl
  have hres : normalizeNumeric raw = toNumericCoerce raw := by
    simp [normalizeNumeric, hm, fillna]
  refine ⟨hres, ?_⟩
  intro o ho
  rw [hres] at ho
  have := List.filterMap_eq_nil_iff.mp h
  simpa using this o ho

/-- C2 amended witness: instantiation on a concrete all-uncoercible column. -/
theorem allbad_column_normalization_noop_witness :
    valids (toNumericCoerce demoAllBad) = [] ∧
    (normalizeNumeric demoAllBad = toNumericCoerce demoAllBad ∧
      ∀ o ∈ normalizeNumeric demoAllBad, o = none) :=
  ⟨by decide, allbad_column_normalization_noop demoAllBad (by decide)⟩

/-- C9 counterexample: the generic Column Typer of `preprocess_data` uses
`errors="ignore"`, which is all-or-nothing — on the column `["1", "x"]`
the one failing value does not become missing; the whole column is
returned unchanged and is not numeric. -/
theorem column_typer_counterexample :
    toNumericIgnore [.num 1, .bad "x"] = .objC [.num 1, .bad "x"] ∧
    toNumericIgnore [.num 1, .bad "x"] ≠ .numC [some 1, none] := by
  constructor <;> decide

/-- C9 amended: the generic Column Typer converts a column to numeric only
when every value coerces (`errors="ignore"` is all-or-nothing, so a column
classified numeric this way had no coercion failure); otherwise the column
is left unchanged as categorical. Only the dedicated `TotalCharges`
conversion (`errors="coerce"`) is per-value: position `i` of its output
depends only on position `i` of the input, failures becoming missing. -/
theorem column_typer_all_or_nothing (xs : List RawVal) :
    (xs.all isCoercibleB = true → toNumericIgnore xs = .numC (toNumericCoerce xs)) ∧
    (xs.all isCoercibleB = false → toNumericIgnore xs = .objC xs) ∧
    (∀ i, i < xs.length →
      (toNumericCoerce xs).getD i none = coerceVal (xs.getD i .nan)) := by
  refine ⟨fun h => by simp [toNumericIgnore, h], fun h => by simp [toNumericIgnore, h], ?_⟩
  intro i hi
  exact getD_map_lt _ _ i hi _ .nan

/-- C9 witness: instantiations of the all-or-nothing branches and the
per-value coercion at a concrete index. -/
theorem column_typer_all_or_nothing_witness :
    ([RawVal.num 1, .num 2].all isCoercibleB = true ∧
      toNumericIgnore [.num 1, .num 2] = .numC (toNumericCoerce [.num 1, .num 2])) ∧
    ([RawVal.num 1, .bad "x"].all isCoercibleB = false ∧
      toNumericIgnore [.num 1, .bad "x"] = .objC [.num 1, .bad "x"]) ∧
    ((1 : ℕ) < [RawVal.num 1, .bad "x"].length ∧
      (toNumericCoerce [.num 1, .bad "x"]).getD 1 none
        = coerceVal ([RawVal.num 1, .bad "x"].getD 1 .nan)) :=
  ⟨⟨by decide, (column_typer_all_or_nothing [.num 1, .num 2]).1 (by decide)⟩,
   ⟨by decide, (column_typer_all_or_nothing [.num 1, .bad "x"]).2.1 (by decide)⟩,
   ⟨by decide, (column_typer_all_or_nothing [.num 1, .bad "x"]).2.2 1 (by decide)⟩⟩

/-- An option equal to a `some` determines a unique witness. -/
theorem existsUnique_of_eq_some {α : Type} {o : Option α} (lab : α)
    (h : o = some lab) : ∃! l, o = some l :=
  ⟨lab, h, fun y hy => by
    rw [h] at hy
    exact (Option.some.inj hy).symm⟩

/-- C3 counterexample: the dashboard's Bin Specs do not cover the whole
line — the boundary value `0` (a tenure that occurs in the data and that
the label "0–12" advertises) and any negative value map to no label. -/
theorem binning_gap_at_zero_counterexample :
    pdCut 0 binsTenure labelsTenure = none ∧
    pdCut 0 binsCharges labelsCharges = none ∧
    pdCut (-1) binsTenure labelsTenure = none := by
  refine ⟨?_, ?_, ?_⟩ <;> decide

/-- C3 amended: binning with the dashboard's Bin Specs is total only on
values strictly above the lowest edge `0`: every such value receives
exactly one label; values at or below `0` receive none (missing). -/
theorem binning_total_above_zero (x : ℚ) (hx : 0 < x) :
    (∃! l, pdCut x binsTenure labelsTenure = some l) ∧
    (∃! l, pdCut x binsCharges labelsCharges = some l) := by
  constructor
  · by_cases h1 : x ≤ 12
    · exact existsUnique_of_eq_some "0–12"
        (by simp [pdCut, pdCutGo, binsTenure, labelsTenure, Edge.ltB, Edge.geB, hx, h1])
    · by_cases h2 : x ≤ 24
      · exact existsUnique_of_eq_some "13–24"
          (by simp [pdCut, pdCutGo, binsTenure, labelsTenure, Edge.ltB, Edge.geB,
            hx, h1, h2, not_le.mp h1])
      · by_cases h3 : x ≤ 48
        · exact existsUnique_of_eq_some "25–48"
            (by simp [pdCut, pdCutGo, binsTenure, labelsTenure, Edge.ltB, Edge.geB,
              hx, h1, h2, h3, not_le.mp h2])
        · by_cases h4 : x ≤ 72
          · exact existsUnique_of_eq_some "49–72"
              (by simp [pdCut, pdCutGo, binsTenure, labelsTenure, Edge.ltB, Edge.geB,
                hx, h1, h2, h3, h4, not_le.mp h3])
          · exact existsUnique_of_eq_some "73+"
              (by simp [pdCut, pdCutGo, binsTenure, labelsTenure, Edge.ltB, Edge.geB,
                hx, h1, h2, h3, h4, not_le.mp h4])
  · by_cases h1 : x ≤ 25
    · exact existsUnique_of_eq_some "0–25"
        (by simp [pdCut, pdCutGo, binsCharges, labelsCharges, Edge.ltB, Edge.geB, hx, h1])
    · by_cases h2 : x ≤ 50
      · exact existsUnique_of_eq_some "26–50"
          (by simp [pdCut, pdCutGo, binsCharges, labelsCharges, Edge.ltB, Edge.geB,
            hx, h1, h2, not_le.mp h1])
      · by_cases h3 : x ≤ 75
        · exact existsUnique_of_eq_some "51–75"
            (by simp [pdCut, pdCutGo, binsCharges, labelsCharges, Edge.ltB, Edge.geB,
              hx, h1, h2, h3, not_le.mp h2])
        · by_cases h4 : x ≤ 100
          · exact existsUnique_of_eq_some "76–100"
              (by simp [pdCut, pdCutGo, binsCharges, labelsCharges, Edge.ltB, Edge.geB,
                hx, h1, h2, h3, h4, not_le.mp h3])
          · exact existsUnique_of_eq_some "100+"
              (by simp [pdCut, pdCutGo, binsCharges, labelsCharges, Edge.ltB, Edge.geB,
                hx, h1, h2, h3, h4, not_le.mp h4])

/-- C3 amended witness: a value strictly above zero is binned to exactly
one label under both Bin Specs. -/
theorem binning_total_above_zero_witness :
    (0 : ℚ) < 5 ∧
    ((∃! l, pdCut 5 binsTenure labelsTenure = some l) ∧
      (∃! l, pdCut 5 binsCharges labelsCharges = some l)) :=
  ⟨by norm_num, binning_total_above_zero 5 (by norm_num)⟩

/-- C4: binning is right-closed — a value on an interior boundary gets the
lower interval's label (each interior boundary of both dashboard Bin Specs
checked, and the spec scenario `[(0,10,low),(10,inf,high)]` sends `10` to
"low"), and the final interval is right-unbounded. -/
theorem binning_right_closed (x : ℚ) :
    pdCut 10 [.fin 0, .fin 10, .inf] ["low", "high"] = some "low" ∧
    (pdCut 12 binsTenure labelsTenure = some "0–12" ∧
      pdCut 24 binsTenure labelsTenure = some "13–24" ∧
      pdCut 48 binsTenure labelsTenure = some "25–48" ∧
      pdCut 72 binsTenure labelsTenure = some "49–72") ∧
    (pdCut 25 binsCharges labelsCharges = some "0–25" ∧
      pdCut 50 binsCharges labelsCharges = some "26–50" ∧
      pdCut 75 binsCharges labelsCharges = some "51–75" ∧
      pdCut 100 binsCharges labelsCharges = some "76–100") ∧
    (72 < x → pdCut x binsTenure labelsTenure = some "73+") ∧
    (100 < x → pdCut x binsCharges labelsCharges = some "100+") := by
  refine ⟨by decide, ⟨by decide, by decide, by decide, by decide⟩,
    ⟨by decide, by decide, by decide, by decide⟩, ?_, ?_⟩
  · intro hx
    have n1 : ¬ x ≤ 12 := by linarith
    have n2 : ¬ x ≤ 24 := by linarith
    have n3 : ¬ x ≤ 48 := by linarith
    have n4 : ¬ x ≤ 72 := by linarith
    simp [pdCut, pdCutGo, binsTenure, labelsTenure, Edge.ltB, Edge.geB,
      n1, n2, n3, n4, hx, not_le.mp n4]
  · intro hx
    have n1 : ¬ x ≤ 25 := by linarith
    have n2 : ¬ x ≤ 50 := by linarith
    have n3 : ¬ x ≤ 75 := by linarith
    have n4 : ¬ x ≤ 100 := by linarith
    simp [pdCut, pdCutGo, binsCharges, labelsCharges, Edge.ltB, Edge.geB,
      n1, n2, n3, n4, hx, not_le.mp n4]

/-- C4 witness: the overflow intervals at the concrete value `1000`. -/
theorem binning_right_closed_witness :
    ((72 : ℚ) < 1000 ∧ pdCut 1000 binsTenure labelsTenure = some "73+") ∧
    ((100 : ℚ) < 1000 ∧ pdCut 1000 binsCharges labelsCharges = some "100+") :=
  ⟨⟨by norm_num, (binning_right_closed 1000).2.2.2.1 (by norm_num)⟩,
   ⟨by norm_num, (binning_right_closed 1000).2.2.2.2 (by norm_num)⟩⟩

/-- A row not accepted by the descending comparison has a strictly larger
value, hence a different value. -/
theorem snd_ne_of_not_rowGe {x y : String × Option ℚ} (h : ¬ rowGe x y) :
    y.2 ≠ x.2 := by
  unfold rowGe at h
  rcases hx : x.2 with _ | qa <;> rcases hy : y.2 with _ | qb <;>
    simp [hx, hy, valGeB] at h ⊢
  exact ne_of_gt h

/-- Inserting a row into a list leaves the sublist of rows with any fixed
value intact, with the new row appearing first exactly when it has that
value: the insertion point lies before every row of equal value. -/
theorem filter_orderedInsert_value (x : String × Option ℚ)
    (l : List (String × Option ℚ)) (v : Option ℚ) :
    (List.orderedInsert rowGe x l).filter (fun p => decide (p.2 = v))
      = if x.2 = v then x :: l.filter (fun p => decide (p.2 = v))
        else l.filter (fun p => decide (p.2 = v)) := by
  induction l with
  | nil =>
      by_cases hxv : x.2 = v <;> simp [List.orderedInsert, List.filter, hxv]
  | cons y t ih =>
      by_cases hxy : rowGe x y
      · rw [List.orderedInsert, if_pos hxy]
        by_cases hxv : x.2 = v <;> simp [List.filter_cons, hxv]
      · rw [List.orderedInsert, if_neg hxy]
        by_cases hxv : x.2 = v
        · have hy : y.2 ≠ v := hxv ▸ snd_ne_of_not_rowGe hxy
          simp [List.filter_cons, hy, hxv, ih]
        · simp [List.filter_cons, hxv, ih]

/-- Sorting the grouped rows by value is stable: for every value, the rows
carrying that value appear in the same order before and after the sort. -/
theorem filter_sortValuesDesc (l : List (String × Option ℚ)) (v : Option ℚ) :
    (sortValuesDesc l).filter (fun p => decide (p.2 = v))
      = l.filter (fun p => decide (p.2 = v)) := by
  unfold sortValuesDesc
  induction l with
  | nil => rfl
  | cons a t ih =>
      rw [List.insertionSort, filter_orderedInsert_value]
      by_cases hav : a.2 = v <;> simp [List.filter_cons, hav, ih]

/-- C5: the grouped scalar aggregate returns the per-group means sorted
descending by value; the sort is stable (rows of equal value keep the
group-key order `groupby` emitted) and drops no group; the scenario
`{cat: [a,a,b], val: [1,3,5]}` yields `[(b, 5), (a, 2)]`. -/
theorem grouped_mean_sorted_stable (keys : List String) (vals : List (Option ℚ)) :
    List.Sorted rowGe (churnRateBy keys vals) ∧
    List.Perm (churnRateBy keys vals) (groupbyMeanRows keys vals) ∧
    (∀ v, (churnRateBy keys vals).filter (fun p => decide (p.2 = v))
      = (groupbyMeanRows keys vals).filter (fun p => decide (p.2 = v))) ∧
    churnRateBy ["a", "a", "b"] [some 1, some 3, some 5]
      = [("b", some 5), ("a", some 2)] := by
  refine ⟨List.sorted_insertionSort rowGe _, List.perm_insertionSort rowGe _,
    fun v => filter_sortValuesDesc _ v, ?_⟩
  have hd : (["a", "a", "b"] : List String).dedup = ["a", "b"] := by decide
  have hab : ("a" : String) ≤ "b" := by
    rw [String.le_iff_toList_le]
    decide
  have hne : ("a" : String) ≠ "b" := by decide
  have hg : groupsOf ["a", "a", "b"] = ["a", "b"] := by
    rw [groupsOf, hd]
    simp [List.insertionSort, List.orderedInsert, hab]
  have hga : groupMean ["a", "a", "b"] [some 1, some 3, some 5] "a" = some 2 := by
    norm_num [groupMean, valids, List.filterMap, hne, hne.symm]
  have hgb : groupMean ["a", "a", "b"] [some 1, some 3, some 5] "b" = some 5 := by
    norm_num [groupMean, valids, List.filterMap, hne, hne.symm]
  rw [churnRateBy, groupbyMeanRows, hg]
  simp only [List.map_cons, List.map_nil, hga, hgb]
  norm_num [sortValuesDesc, List.insertionSort, List.orderedInsert, rowGe, valGeB]

/-- Zipping two maps of the same list is a map of the pairing. -/
theorem zipMapPair {α β γ : Type} (f : α → β) (g : α → γ) (l : List α) :
    (l.map f).zip (l.map g) = l.map (fun a => (f a, g a)) := by
  induction l with
  | nil => rfl
  | cons a t ih => simp [ih]

/-- Zipping a list with itself pairs each element with itself. -/
theorem zip_self_eq {α : Type} (l : List α) : l.zip l = l.map (fun a => (a, a)) := by
  induction l with
  | nil => rfl
  | cons a t ih => simp [ih]

/-- Sample covariance of paired projections is symmetric. -/
theorem covQ_map_comm (ps : List (ℚ × ℚ)) :
    covQ (ps.map Prod.fst) (ps.map Prod.snd) = covQ (ps.map Prod.snd) (ps.map Prod.fst) := by
  unfold covQ
  rw [zipMapPair, zipMapPair]
  simp only [List.map_map, List.length_map]
  congr 1
  congr 1
  apply List.map_congr_left
  intro p hp
  simp only [Function.comp_apply]
  ring

/-- Self-covariance (sample variance) is nonnegative. -/
theorem covQ_self_nonneg (zs : List ℚ) : 0 ≤ covQ zs zs := by
  unfold covQ
  rcases zs with _ | ⟨a, t⟩
  · simp
  · apply div_nonneg
    · rw [zip_self_eq]
      simp only [List.map_map]
      apply List.sum_nonneg
      intro x hx
      simp only [List.mem_map, Function.comp_apply] at hx
      obtain ⟨y, -, rfl⟩ := hx
      exact mul_self_nonneg _
    · rw [List.length_cons]
      push_cast
      linarith [(Nat.cast_nonneg t.length : (0 : ℚ) ≤ t.length)]

/-- Pairwise-complete masking of a column against itself selects exactly
its valid entries, paired with themselves. -/
theorem pairComplete_self (xs : List (Option ℚ)) :
    pairComplete xs xs = (valids xs).map (fun a => (a, a)) := by
  induction xs with
  | nil => rfl
  | cons o t ih =>
      cases o <;> simp [pairComplete, valids, List.filterMap_cons] at ih ⊢ <;>
        simpa using ih

/-- Pairwise-complete masking is symmetric up to swapping each pair. -/
theorem pairComplete_swap (xs ys : List (Option ℚ)) :
    pairComplete ys xs = (pairComplete xs ys).map Prod.swap := by
  induction xs generalizing ys with
  | nil => cases ys <;> rfl
  | cons o t ih =>
      cases ys with
      | nil => rfl
      | cons o2 ys2 =>
          cases o <;> cases o2 <;>
            simp [pairComplete, List.filterMap_cons, List.zip_cons_cons] at ih ⊢ <;>
            simpa [pairComplete] using ih ys2

/-- First projection of the self-masked pairs is the valid entries. -/
theorem map_fst_pairComplete_self (xs : List (Option ℚ)) :
    (pairComplete xs xs).map Prod.fst = valids xs := by
  rw [pairComplete_self]
  simp [Function.comp_def]

/-- Second projection of the self-masked pairs is the valid entries. -/
theorem map_snd_pairComplete_self (xs : List (Option ℚ)) :
    (pairComplete xs xs).map Prod.snd = valids xs := by
  rw [pairComplete_self]
  simp [Function.comp_def]

/-- Correlation entries are symmetric in their two columns. -/
theorem corrEntry_symm (xs ys : List (Option ℚ)) : corrEntry xs ys = corrEntry ys xs := by
  unfold corrEntry
  rw [pairComplete_swap xs ys]
  simp only [List.map_map, Function.comp_def, Prod.fst_swap, Prod.snd_swap]
  have hfst : (pairComplete xs ys).map (fun a => a.1) = (pairComplete xs ys).map Prod.fst := rfl
  have hsnd : (pairComplete xs ys).map (fun a => a.2) = (pairComplete xs ys).map Prod.snd := rfl
  rw [hfst, hsnd, ← covQ_map_comm]
  by_cases hx : covQ ((pairComplete xs ys).map Prod.fst) ((pairComplete xs ys).map Prod.fst) = 0 <;>
    by_cases hy : covQ ((pairComplete xs ys).map Prod.snd) ((pairComplete xs ys).map Prod.snd) = 0 <;>
    simp [hx, hy, mul_comm]

/-- A diagonal entry over a column of nonzero variance is exactly one. -/
theorem corrEntry_diag_of_var_ne (xs : List (Option ℚ)) (h : varObs xs ≠ 0) :
    corrEntry xs xs = some 1 := by
  unfold corrEntry
  rw [map_fst_pairComplete_self, map_snd_pairComplete_self]
  have h0 : covQ (valids xs) (valids xs) ≠ 0 := h
  rw [if_neg (by simp [h0])]
  congr 1
  rw [Real.mul_self_sqrt (by exact_mod_cast covQ_self_nonneg (valids xs))]
  exact div_self (by exact_mod_cast h0)

/-- A diagonal entry over a zero-variance column is the NaN sentinel. -/
theorem corrEntry_diag_of_var_eq (xs : List (Option ℚ)) (h : varObs xs = 0) :
    corrEntry xs xs = none := by
  unfold corrEntry
  rw [map_fst_pairComplete_self, map_snd_pairComplete_self]
  exact if_pos (Or.inl h)

/-- Matrix entries are the correlation of the selected columns. -/
theorem corrAt_eq (cols : List (List (Option ℚ))) (i j : ℕ)
    (hi : i < cols.length) (hj : j < cols.length) :
    corrAt cols i j = corrEntry (cols.getD i []) (cols.getD j []) := by
  unfold corrAt corrMatrix
  rw [getD_map_lt (fun x => cols.map (fun y => corrEntry x y)) cols i hi ([]) ([])]
  rw [getD_map_lt (fun y => corrEntry (cols.getD i []) y) cols j hj none ([])]

/-- C6: for any list of numeric columns the correlation matrix is square
of the full size (no column dropped), symmetric, its diagonal is exactly
`1` at every column of nonzero variance, and a zero-variance column
produces the NaN sentinel on the diagonal instead of a number. -/
theorem corr_matrix_props (cols : List (List (Option ℚ))) :
    ((corrMatrix cols).length = cols.length ∧
      ∀ row ∈ corrMatrix cols, row.length = cols.length) ∧
    (∀ i j, i < cols.length → j < cols.length → corrAt cols i j = corrAt cols j i) ∧
    (∀ i, i < cols.length → varObs (cols.getD i []) ≠ 0 → corrAt cols i i = some 1) ∧
    (∀ i, i < cols.length → varObs (cols.getD i []) = 0 → corrAt cols i i = none) := by
  refine ⟨⟨by simp [corrMatrix], ?_⟩, ?_, ?_, ?_⟩
  · intro row hrow
    simp only [corrMatrix, List.mem_map] at hrow
    obtain ⟨x, -, rfl⟩ := hrow
    simp
  · intro i j hi hj
    rw [corrAt_eq cols i j hi hj, corrAt_eq cols j i hj hi]
    exact corrEntry_symm _ _
  · intro i hi h
    rw [corrAt_eq cols i i hi hi]
    exact corrEntry_diag_of_var_ne _ h
  · intro i hi h
    rw [corrAt_eq cols i i hi hi]
    exact corrEntry_diag_of_var_eq _ h

/-- C6 witness: on the concrete pair of columns, symmetry of an
off-diagonal entry, a unit diagonal entry for the increasing column, and
the NaN sentinel for the constant column. -/
theorem corr_matrix_props_witness :
    (corrAt demoCols 0 1 = corrAt demoCols 1 0) ∧
    (varObs (demoCols.getD 0 []) ≠ 0 ∧ corrAt demoCols 0 0 = some 1) ∧
    (varObs (demoCols.getD 1 []) = 0 ∧ corrAt demoCols 1 1 = none) :=
  ⟨(corr_matrix_props demoCols).2.1 0 1 (by norm_num [demoCols]) (by norm_num [demoCols]),
   ⟨by norm_num [demoCols, varObs, covQ, valids, meanQ, List.filterMap],
    (corr_matrix_props demoCols).2.2.1 0 (by norm_num [demoCols])
      (by norm_num [demoCols, varObs, covQ, valids, meanQ, List.filterMap])⟩,
   ⟨by norm_num [demoCols, varObs, covQ, valids, meanQ, List.filterMap],
    (corr_matrix_props demoCols).2.2.2 1 (by norm_num [demoCols])
      (by norm_num [demoCols, varObs, covQ, valids, meanQ, List.filterMap])⟩⟩

/-- C7 counterexample: a value outside the binary domain of the Churn
column does not raise — `Series.map` sends it to missing (`NaN`), so the
derived flag column can itself contain a missing value. -/
theorem churn_flag_counterexample :
    (["Yes", "No", "Maybe"].map churnFlag) = [some 1, some 0, none] := by
  decide

/-- C7 amended: the flag derivation is the fixed deterministic mapping
"Yes" to `1` and "No" to `0`, and every value outside the binary domain
becomes missing (`NaN`) rather than raising an error. -/
theorem churn_flag_fixed_mapping (v : String) :
    (v = "Yes" → churnFlag v = some 1) ∧
    (v = "No" → churnFlag v = some 0) ∧
    (v ≠ "Yes" → v ≠ "No" → churnFlag v = none) := by
  refine ⟨fun h => by simp [churnFlag, h], fun h => by simp [churnFlag, h], ?_⟩
  intro h1 h2
  simp [churnFlag, h1, h2]

/-- C7 amended witness: the three mapping branches at concrete inputs. -/
theorem churn_flag_fixed_mapping_witness :
    churnFlag "Yes" = some 1 ∧ churnFlag "No" = some 0 ∧ churnFlag "Maybe" = none :=
  ⟨(churn_flag_fixed_mapping "Yes").1 rfl,
   (churn_flag_fixed_mapping "No").2.1 rfl,
   (churn_flag_fixed_mapping "Maybe").2.2 (by decide) (by decide)⟩

/-- C8: after a selector-change event on any field, both static figures
are unchanged, the selector records the new value, and the scatter figure
is recomputed from the new selector exactly when the changed field is
among the callback's declared dependencies (and left untouched
otherwise). -/
theorem selector_change_frame (df : TFrame) (st : AppState) (f : SField) (v : String) :
    (handleChange df st f v).figSummary = st.figSummary ∧
    (handleChange df st f v).figCorr = st.figCorr ∧
    (handleChange df st f v).sel = st.sel.set f v ∧
    (f ∈ scatterDeps →
      (handleChange df st f v).scatterFig = update_scatter df (st.sel.set f v)) ∧
    (f ∉ scatterDeps → (handleChange df st f v).scatterFig = st.scatterFig) := by
  refine ⟨rfl, rfl, rfl, ?_, ?_⟩
  · intro h
    simp [handleChange, h]
  · intro h
    simp [handleChange, h]

/-- C8 witness: the spec scenario — changing `y` from "B" to "C" rebuilds
the scatter figure from the new selector while the static summary and
correlation figures stay identical. -/
theorem selector_change_frame_witness :
    (handleChange demoTFrame demoAppState .yf "C").figSummary = demoAppState.figSummary ∧
    (handleChange demoTFrame demoAppState .yf "C").figCorr = demoAppState.figCorr ∧
    (SField.yf ∈ scatterDeps ∧
      (handleChange demoTFrame demoAppState .yf "C").scatterFig
        = update_scatter demoTFrame (demoAppState.sel.set .yf "C")) :=
  ⟨(selector_change_frame demoTFrame demoAppState .yf "C").1,
   (selector_change_frame demoTFrame demoAppState .yf "C").2.1,
   ⟨by decide,
    (selector_change_frame demoTFrame demoAppState .yf "C").2.2.2.1 (by decide)⟩⟩

/-- C10: when the input table lacks the InternetService column the
dashboard still builds every figure — the churn-by-internet view is the
empty figure instead of an error — and no other precomputed figure reads
that column: changing it (to absent or to any value) leaves them all
identical. -/
theorem internet_fig_degrades (df : TelcoFrame) (h : df.internetService = none) :
    figChurnInternet df = Fig.empty ∧
    ∀ alt : Option (List String),
      figChurnPie { df with internetService := alt } = figChurnPie df ∧
      figChurnContract { df with internetService := alt } = figChurnContract df ∧
      figTenureHist { df with internetService := alt } = figTenureHist df ∧
      figMonthlyBox { df with internetService := alt } = figMonthlyBox df ∧
      figCorrHeatmap { df with internetService := alt } = figCorrHeatmap df ∧
      figChurnHeatmap { df with internetService := alt } = figChurnHeatmap df := by
  refine ⟨?_, fun alt => ⟨rfl, rfl, rfl, rfl, rfl, rfl⟩⟩
  rw [figChurnInternet, h]

/-- C10 witness: the concrete frame without InternetService yields the
empty figure and the other figures ignore that column. -/
theorem internet_fig_degrades_witness :
    demoTelco.internetService = none ∧
    (figChurnInternet demoTelco = Fig.empty ∧
      figChurnPie { demoTelco with internetService := some ["DSL", "Fiber"] }
        = figChurnPie demoTelco) :=
  ⟨rfl,
   ⟨(internet_fig_degrades demoTelco rfl).1,
    ((internet_fig_degrades demoTelco rfl).2 (some ["DSL", "Fiber"])).1⟩⟩
